import Mathlib

/-!
Verification of the geometry-resource subsystem of the ccpwgl2 rendering
engine (`Tw2GeometryRes` and its collaborators), via a shallow embedding of
the JavaScript source into Lean.

The embedding follows the source file that defines `Tw2GeometryRes`
(vertex-buffer decoding, area-merge rendering, bounds maintenance, the
resource lifecycle, mesh-to-model binding and ray intersection).  Parts of
the repository that the geometry resource calls but whose sources are not
part of this codebase snapshot (the binary reader `Tw2BinaryReader`, the
`box3`/`vec3` math helpers, `Tw2GeometryMesh` internals and the format
readers) are modelled from the specification and are marked as such in
their doc comments.
-/

namespace CC

/-! ## Binary reader

Modelled from the spec: `Tw2BinaryReader` is not part of the sources; the
spec's decoding properties are stated in terms of "encoded scalars", so the
reader is modelled as a cursor over an unbounded stream of integer tokens.
Each `ReadX` call consumes exactly one encoded scalar; integer reads wrap
their token into the range of the read type, float reads yield the token's
numeric value. -/
structure BinReader where
  data : Nat → Int
  cursor : Nat

/-- Wraps an integer token into the signed 8-bit range `[-128, 127]`. -/
def wrap8 (v : Int) : Int := (v + 128) % 256 - 128

/-- Wraps an integer token into the signed 16-bit range. -/
def wrap16 (v : Int) : Int := (v + 32768) % 65536 - 32768

/-- Wraps an integer token into the signed 32-bit range. -/
def wrap32 (v : Int) : Int := (v + 2147483648) % 4294967296 - 2147483648

/-- Wraps an integer token into the unsigned 8-bit range `[0, 255]`. -/
def u8 (v : Int) : Int := v % 256

/-- Wraps an integer token into the unsigned 16-bit range. -/
def u16 (v : Int) : Int := v % 65536

/-- Wraps an integer token into the unsigned 32-bit range. -/
def u32 (v : Int) : Int := v % 4294967296

/-- A single scalar read: applies `g` to the token at the cursor and
advances the cursor by one. -/
def mkRead (g : Int → ℚ) (r : BinReader) : ℚ × BinReader :=
  (g (r.data r.cursor), { r with cursor := r.cursor + 1 })

/-- Reads `n` scalars in sequence with the reader `f`. -/
def readN (f : BinReader → ℚ × BinReader) : Nat → BinReader → List ℚ × BinReader
  | 0, r => ([], r)
  | n + 1, r =>
    let (v, r1) := f r
    let (vs, r2) := readN f n r1
    (v :: vs, r2)

/-- `reader.ReadUInt8()` used by the declaration-phase of `ReadVertexBuffer`. -/
def readU8nat (r : BinReader) : Nat × BinReader :=
  ((u8 (r.data r.cursor)).toNat, { r with cursor := r.cursor + 1 })

/-- `reader.ReadUInt32()` used to read the vertex count. -/
def readU32nat (r : BinReader) : Nat × BinReader :=
  ((u32 (r.data r.cursor)).toNat, { r with cursor := r.cursor + 1 })

/-! ## Errors raised by the geometry resource (`Tw2Error` subclasses). -/

/-- The error values thrown or reported by `Tw2GeometryRes`, with the
structured context each carries in the source. -/
inductive GeomErr where
  /-- `ErrGeometryFileType Invalid geometry file type`: carries the asset
  path and the reported value `el.fileType & 0xf`. -/
  | fileType (path : String) (value : Nat)
  /-- `ErrGeometryMeshAreaMissing`: carries the asset path and the missing
  area index. -/
  | areaMissing (path : String) (areaIndex : Nat)
  /-- `ErrGeometryMeshBoneNameInvalid`: carries resource path, mesh name,
  bone name and model name. -/
  | boneNameInvalid (path mesh bone model : String)
  /-- `ErrGeometryMeshEffectBinding`: carries the asset path and the pass
  index. -/
  | effectBinding (path : String) (pass : Nat)
  deriving DecidableEq

/-! ## Vertex elements and the per-element decoder
(`Tw2GeometryRes.ReadVertexBuffer`). -/

/-- `Tw2VertexElement` as built by `ReadVertexBuffer`: `elements` is the
component count `(fileType >> 5) + 1`, `offset` the accumulated byte
offset. -/
structure Tw2VertexElement where
  usage : Nat
  usageIndex : Nat
  fileType : Nat
  elements : Nat
  offset : Nat
  deriving DecidableEq

/-- Decodes the scalars of one vertex element, mirroring the
`switch (el.fileType & 0xf)` in `ReadVertexBuffer`.  Each case consumes
`el.elements` encoded scalars; an unknown low nibble throws
`ErrGeometryFileType` carrying the asset path and `el.fileType & 0xf`. -/
def decodeElement (path : String) (el : Tw2VertexElement) (r : BinReader) :
    Except GeomErr (List ℚ × BinReader) :=
  let ft := el.fileType &&& 0xf
  let norm := el.fileType &&& 0x10 != 0
  if ft = 0 then
    if norm then .ok (readN (mkRead fun v => (wrap8 v : ℚ) / 127) el.elements r)
    else .ok (readN (mkRead fun v => (wrap8 v : ℚ)) el.elements r)
  else if ft = 1 then
    if norm then .ok (readN (mkRead fun v => (wrap8 v : ℚ) / 32767) el.elements r)
    else .ok (readN (mkRead fun v => (wrap16 v : ℚ)) el.elements r)
  else if ft = 2 then
    .ok (readN (mkRead fun v => (wrap32 v : ℚ)) el.elements r)
  else if ft = 3 then
    .ok (readN (mkRead fun v => (v : ℚ)) el.elements r)
  else if ft = 4 then
    .ok (readN (mkRead fun v => (v : ℚ)) el.elements r)
  else if ft = 8 then
    if norm then .ok (readN (mkRead fun v => (u8 v : ℚ) / 255) el.elements r)
    else .ok (readN (mkRead fun v => (u8 v : ℚ)) el.elements r)
  else if ft = 9 then
    if norm then .ok (readN (mkRead fun v => (u8 v : ℚ) / 65535) el.elements r)
    else .ok (readN (mkRead fun v => (u16 v : ℚ)) el.elements r)
  else if ft = 10 then
    .ok (readN (mkRead fun v => (u32 v : ℚ)) el.elements r)
  else
    .error (.fileType path ft)

/-- Decodes one vertex: every declared element in declaration order. -/
def decodeVertexElements (path : String) :
    List Tw2VertexElement → BinReader → Except GeomErr (List ℚ × BinReader)
  | [], r => .ok ([], r)
  | el :: rest, r =>
    match decodeElement path el r with
    | .error e => .error e
    | .ok (out, r1) =>
      match decodeVertexElements path rest r1 with
      | .error e => .error e
      | .ok (out2, r2) => .ok (out ++ out2, r2)

/-- Decodes `n` vertices: the main decode loop of `ReadVertexBuffer`. -/
def decodeVertices (path : String) (decl : List Tw2VertexElement) :
    Nat → BinReader → Except GeomErr (List ℚ × BinReader)
  | 0, r => .ok ([], r)
  | n + 1, r =>
    match decodeVertexElements path decl r with
    | .error e => .error e
    | .ok (v, r1) =>
      match decodeVertices path decl n r1 with
      | .error e => .error e
      | .ok (vs, r2) => .ok (v ++ vs, r2)

/-- The declaration phase of `ReadVertexBuffer`: reads `declCount` element
descriptors (`usage`, `usageIndex`, `fileType`), derives the component
count `(fileType >> 5) + 1` and the accumulated offset, and returns the
total per-vertex scalar count. -/
def readElements : Nat → Nat → BinReader → List Tw2VertexElement × Nat × BinReader
  | 0, vertexSize, r => ([], vertexSize, r)
  | n + 1, vertexSize, r =>
    let (us, r1) := readU8nat r
    let (ui, r2) := readU8nat r1
    let (ft, r3) := readU8nat r2
    let el : Tw2VertexElement := ⟨us, ui, ft, (ft >>> 5) + 1, vertexSize * 4⟩
    let (rest, vertexSize2, r4) := readElements n (vertexSize + el.elements) r3
    (el :: rest, vertexSize2, r4)

/-- `Tw2GeometryRes.ReadVertexBuffer`: reads the declaration, then the
vertex count (`none` when zero — empty geometry is valid), then the flat
interleaved vertex data. -/
def ReadVertexBuffer (path : String) (r : BinReader) :
    Except GeomErr (Option (List ℚ) × BinReader) :=
  let (declCount, r1) := readU8nat r
  let (decl, _vertexSize, r2) := readElements declCount 0 r1
  let (vertexCount, r3) := readU32nat r2
  if vertexCount = 0 then .ok (none, r3)
  else
    match decodeVertices path decl vertexCount r3 with
    | .error e => .error e
    | .ok (buf, r4) => .ok (some buf, r4)

/-- The low nibbles handled by the `switch` in `ReadVertexBuffer`. -/
def supportedNibble (ft : Nat) : Prop :=
  ft &&& 0xf = 0 ∨ ft &&& 0xf = 1 ∨ ft &&& 0xf = 2 ∨ ft &&& 0xf = 3 ∨
  ft &&& 0xf = 4 ∨ ft &&& 0xf = 8 ∨ ft &&& 0xf = 9 ∨ ft &&& 0xf = 10

instance (ft : Nat) : Decidable (supportedNibble ft) := by
  unfold supportedNibble; infer_instance

/-! ## Geometry data model -/

/-- A vector of the `vec3` math module (components as exact rationals). -/
structure Vec3 where
  x : ℚ
  y : ℚ
  z : ℚ
  deriving DecidableEq

/-- The zero vector `vec3.fromValues(0, 0, 0)`. -/
def vzero : Vec3 := ⟨0, 0, 0⟩

/-- Modelled from the spec: componentwise minimum, used by the `box3`
bounds union (the `box3` module is not in the sources). -/
def vmin (a b : Vec3) : Vec3 := ⟨min a.x b.x, min a.y b.y, min a.z b.z⟩

/-- Modelled from the spec: componentwise maximum for the bounds union. -/
def vmax (a b : Vec3) : Vec3 := ⟨max a.x b.x, max a.y b.y, max a.z b.z⟩

/-- Modelled from the spec: `box3.bounds.empty` resets a box to the
empty-bounds sentinel; the spec fixes its derived sphere to a zero-radius
sphere at the origin, so the sentinel is the origin box. -/
def boundsEmpty : Vec3 × Vec3 := (vzero, vzero)

/-- Modelled from the spec: `box3.bounds.toPositionRadius` derives a
center/radius pair from a box; the radius uses the half-extent max-norm as
an executable stand-in for the half-diagonal (no claim depends on the
radius formula, only on determinism and on the empty box giving radius
zero at the origin). -/
def toPositionRadius (mn mx : Vec3) : Vec3 × ℚ :=
  (⟨(mn.x + mx.x) / 2, (mn.y + mx.y) / 2, (mn.z + mx.z) / 2⟩,
   max (mx.x - mn.x) (max (mx.y - mn.y) (mx.z - mn.z)) / 2)

/-- `Tw2GeometryMeshArea`: a named sub-range of a mesh's index buffer. -/
structure Tw2GeometryMeshArea where
  name : String
  start : Int
  count : Int
  deriving DecidableEq

/-- An axis-aligned bounding box (per-bone bounds). -/
structure Box where
  minB : Vec3
  maxB : Vec3
  deriving DecidableEq

/-- `Tw2GeometryMesh`, keeping the fields the verified operations touch:
the area list, the index element type, the mesh bounds and dirty flag, the
bone-binding names and per-bone bounds table, and the system-mirror vertex
positions its bounds are recomputed from. -/
structure Tw2GeometryMesh where
  name : String
  areas : List Tw2GeometryMeshArea
  indexType : Nat
  minBounds : Vec3
  maxBounds : Vec3
  boundsDirty : Bool
  geometry : List Vec3
  boneBindings : List String
  boneBounds : List (String × Box)
  deriving DecidableEq

/-- A default mesh value for the (unreachable) `|| this.meshes[0]`
fallback in `RenderAreas`. -/
def defaultMesh : Tw2GeometryMesh :=
  ⟨"", [], 0, vzero, vzero, true, [], [], []⟩

instance : Inhabited Tw2GeometryMesh := ⟨defaultMesh⟩

/-- A bone of a skeletal model (`model.FindBoneByName` result). -/
structure Bone where
  name : String
  boundingBox : Option Box
  deriving DecidableEq

/-- `Tw2GeometryMeshBinding`: one mesh bound to a model, with the resolved
bones in `boneBindings` order. -/
structure Tw2GeometryMeshBinding where
  meshName : String
  bones : List Bone
  deriving DecidableEq

/-- `Tw2GeometryModel`, as exposed to the binder: a name, a bone list
searched by `FindBoneByName`, and the owned `meshBindings` list. -/
structure Tw2GeometryModel where
  name : String
  bones : List Bone
  meshBindings : List Tw2GeometryMeshBinding
  deriving DecidableEq

/-- `Tw2GeometryRes`: the top-level aggregate state. -/
structure Tw2GeometryRes where
  path : String
  isGood : Bool
  meshes : List Tw2GeometryMesh
  models : List Tw2GeometryModel
  animations : List Nat
  minBounds : Vec3
  maxBounds : Vec3
  boundsSpherePosition : Vec3
  boundsSphereRadius : ℚ
  boundsDirty : Bool
  deriving DecidableEq

/-! ## Bounds engine (`RebuildBounds`, spec section 4.2) -/

/-- Modelled from the spec: the mesh's own bounds recompute
(`Tw2GeometryMesh.RebuildBounds` is not in the sources) derives the mesh
box from its vertex data; embedded as a fold of the componentwise union
over the mesh's mirrored positions starting from the empty sentinel. -/
def meshComputedBounds (m : Tw2GeometryMesh) : Vec3 × Vec3 :=
  m.geometry.foldl (fun acc p => (vmin acc.1 p, vmax acc.2 p)) boundsEmpty

/-- Modelled from the spec: a mesh rebuilds its bounds when dirty or
forced, and clears its dirty flag. -/
def meshRebuildBounds (force : Bool) (m : Tw2GeometryMesh) : Tw2GeometryMesh :=
  if m.boundsDirty || force then
    { m with minBounds := (meshComputedBounds m).1,
             maxBounds := (meshComputedBounds m).2,
             boundsDirty := false }
  else m

/-- `Tw2GeometryRes.RebuildBounds(force)`: when clean and unforced, first
escalates the resource flag if any owned mesh is dirty; when dirty or
forced, resets the box to the empty sentinel, rebuilds and unions every
mesh box, derives the bounding sphere and clears the flag.  Returns the
new state and whether a recompute happened. -/
def RebuildBounds (res : Tw2GeometryRes) (force : Bool) : Tw2GeometryRes × Bool :=
  let dirty :=
    if !res.boundsDirty && !force then res.meshes.any (·.boundsDirty)
    else res.boundsDirty
  if dirty || force then
    let meshes2 := res.meshes.map (meshRebuildBounds force)
    let box := meshes2.foldl
      (fun acc m => (vmin acc.1 m.minBounds, vmax acc.2 m.maxBounds)) boundsEmpty
    let sphere := toPositionRadius box.1 box.2
    ({ res with meshes := meshes2,
                minBounds := box.1,
                maxBounds := box.2,
                boundsSpherePosition := sphere.1,
                boundsSphereRadius := sphere.2,
                boundsDirty := false }, true)
  else (res, false)

/-! ## Lifecycle (`Clear`, `Prepare`, spec section 4.5) -/

/-- `Tw2GeometryRes.Clear()`: drops all meshes, models and animations and
resets the aggregate bounds to zero.  It does not touch `_boundsDirty`. -/
def Clear (res : Tw2GeometryRes) : Tw2GeometryRes :=
  { res with meshes := [], models := [], animations := [],
             minBounds := vzero, maxBounds := vzero,
             boundsSpherePosition := vzero, boundsSphereRadius := 0 }

/-- Modelled from the spec: the output of a registered format reader's
`Prepare` (the reader modules are not in the sources) — the decoded
meshes, models and animations it installs on the target resource. -/
structure GeometryData where
  meshes : List Tw2GeometryMesh
  models : List Tw2GeometryModel
  animations : List Nat
  deriving DecidableEq

/-- `Tw2GeometryRes.Prepare(data)`: clears first, lets the reader populate
the resource, then rebuilds bounds. -/
def Prepare (res : Tw2GeometryRes) (d : GeometryData) : Tw2GeometryRes :=
  let r1 := Clear res
  let r2 := { r1 with meshes := d.meshes, models := d.models,
                      animations := d.animations }
  (RebuildBounds r2 false).1

/-! ## Mesh-model binder (`BindMeshToModel`, spec section 4.3) -/

/-- `model.FindBoneByName(name)`: first bone with the given name. -/
def FindBoneByName (model : Tw2GeometryModel) (n : String) : Option Bone :=
  model.bones.find? (fun b => b.name == n)

/-- Modelled from the spec: `mesh.FindBoneBoundsByName(name)` looks up the
mesh's per-bone bounding box table by name. -/
def FindBoneBoundsByName (mesh : Tw2GeometryMesh) (n : String) : Option Box :=
  (mesh.boneBounds.find? (fun e => e.1 == n)).map (·.2)

/-- Assigns `bone.boundingBox` on the first bone named `n` (the in-place
mutation of the found bone object). -/
def setBoneBox (n : String) (bb : Option Box) : List Bone → List Bone
  | [] => []
  | b :: rest =>
    if b.name == n then { b with boundingBox := bb } :: rest
    else b :: setBoneBox n bb rest

/-- The loop of `BindMeshToModel` over `mesh.boneBindings`: resolves each
name, pushes the resolved bone onto the binding and assigns the bone's
bounding box; a missing bone stops the loop with
`ErrGeometryMeshBoneNameInvalid` (the binding is never appended). -/
def bindLoop (path meshName : String) (mesh : Tw2GeometryMesh) :
    List String → Tw2GeometryModel → List Bone →
    Tw2GeometryModel × Option GeomErr
  | [], model, acc =>
    ({ model with meshBindings := model.meshBindings ++ [⟨meshName, acc⟩] }, none)
  | n :: rest, model, acc =>
    match FindBoneByName model n with
    | none => (model, some (.boneNameInvalid path meshName n model.name))
    | some bone =>
      let bb := FindBoneBoundsByName mesh n
      let bone2 := { bone with boundingBox := bb }
      bindLoop path meshName mesh rest
        { model with bones := setBoneBox n bb model.bones } (acc ++ [bone2])

/-- `Tw2GeometryRes.BindMeshToModel(mesh, model, res)`: returns the
(possibly partially bone-mutated) model together with the thrown error,
if any. -/
def BindMeshToModel (mesh : Tw2GeometryMesh) (model : Tw2GeometryModel)
    (res : Tw2GeometryRes) : Tw2GeometryModel × Option GeomErr :=
  bindLoop res.path mesh.name mesh mesh.boneBindings model []

/-! ## Area batch renderer (`RenderAreas` / `RenderLines` /
`RenderAreasInstanced`, spec section 4.4) -/

/-- The inner merge loop shared by the three render functions: starting
from the run `(aS, aC)` whose last folded area index is `i + start`, folds
the next requested area while it exists and its `start` equals
`aS + aC * 2`; returns the merged run and the number of folds, or the
index of a missing area (`ErrGeometryMeshAreaMissing`). -/
def innerMerge (areas : List Tw2GeometryMeshArea) (start count : Nat)
    (i : Nat) (aS aC : Int) : Except Nat (Int × Int × Nat) :=
  if h : i + 1 < count then
    match areas.get? (i + 1 + start) with
    | none => .error (i + 1 + start)
    | some a =>
      if a.start = aS + aC * 2 then
        match innerMerge areas start count (i + 1) aS (aC + a.count) with
        | .ok (s, c, d) => .ok (s, c, d + 1)
        | .error e => .error e
      else .ok (aS, aC, 0)
  else .ok (aS, aC, 0)
  termination_by count - i
  decreasing_by omega

/-- The outer area loop shared by the three render functions: for each
requested index `i` in range of the area list, accumulates a merged run
and emits one draw `(start, count)` per run; indices beyond the area list
are skipped silently by the `i + start < areas.length` guard.  Returns the
draws issued before any missing-area error. -/
def outerAreas (areas : List Tw2GeometryMeshArea) (start count : Nat)
    (i : Nat) : List (Int × Int) × Option Nat :=
  if h : i < count then
    match ha : areas.get? (i + start) with
    | none => outerAreas areas start count (i + 1)
    | some a =>
      match innerMerge areas start count i a.start a.count with
      | .error e => ([], some e)
      | .ok (s, c, d) =>
        let rest := outerAreas areas start count (i + d + 1)
        ((s, c) :: rest.1, rest.2)
  else ([], none)
  termination_by count - i
  decreasing_by all_goals omega

/-- One GPU draw submission (`gl.drawElements` /
`gl.drawElementsInstanced`): primitive mode, index count, index element
type, byte offset, and the instance count for the instanced path. -/
structure Draw where
  mode : Nat
  count : Int
  indexType : Nat
  offset : Int
  instanced : Option Nat
  deriving DecidableEq

/-- `gl.TRIANGLES`. -/
def glTRIANGLES : Nat := 4

/-- `gl.LINES`. -/
def glLINES : Nat := 1

/-- Modelled from the spec: one render pass of the effect collaborator —
whether `passInput.elements` is empty, and whether the mesh declaration
can satisfy the pass inputs (`SetDeclaration` success). -/
structure PassInput where
  elementCount : Nat
  bindOk : Bool
  deriving DecidableEq

/-- Modelled from the spec: the effect collaborator, reduced to its pass
list (`GetPassCount` / `GetPassInput`). -/
structure Effect where
  passes : List PassInput
  deriving DecidableEq

/-- The outcome of a render call: the returned boolean, the draws issued,
and the error reported through `OnError`, if any. -/
structure RenderOut where
  ok : Bool
  draws : List Draw
  err : Option GeomErr
  deriving DecidableEq

/-- The per-pass loop of `RenderAreas` / `RenderLines`: a pass whose
inputs the mesh declaration cannot satisfy reports
`ErrGeometryMeshEffectBinding` and aborts; otherwise the pass walks the
requested areas and issues one draw per merged run. -/
def passLoopDirect (path : String) (mesh : Tw2GeometryMesh)
    (start count mode : Nat) : List PassInput → Nat → RenderOut
  | [], _ => ⟨true, [], none⟩
  | p :: rest, passIx =>
    if p.bindOk = false then ⟨false, [], some (.effectBinding path passIx)⟩
    else
      let walk := outerAreas mesh.areas start count 0
      let draws := walk.1.map fun rc => Draw.mk mode rc.2 mesh.indexType rc.1 none
      match walk.2 with
      | some ix => ⟨false, draws, some (.areaMissing path ix)⟩
      | none =>
        let out := passLoopDirect path mesh start count mode rest (passIx + 1)
        ⟨out.ok, draws ++ out.draws, out.err⟩

/-- `Tw2GeometryRes.RenderAreas`: returns `false` (issuing nothing) when
the pass count is zero, the resource is not good, or `meshIx` is out of
range; the `meshes[meshIx] || meshes[0]` fallback is kept from the
source although the guard makes it unreachable for out-of-range
indices. -/
def RenderAreas (res : Tw2GeometryRes) (meshIx start count : Nat)
    (effect : Effect) : RenderOut :=
  if effect.passes.length = 0 ∨ res.isGood = false ∨
      res.meshes.length ≤ meshIx then ⟨false, [], none⟩
  else
    let mesh := ((res.meshes.get? meshIx).getD ((res.meshes.get? 0).getD defaultMesh))
    passLoopDirect res.path mesh start count glTRIANGLES effect.passes 0

/-- `Tw2GeometryRes.RenderLines`: same as `RenderAreas` with the line
primitive and no mesh-0 fallback. -/
def RenderLines (res : Tw2GeometryRes) (meshIx start count : Nat)
    (effect : Effect) : RenderOut :=
  if effect.passes.length = 0 ∨ res.isGood = false ∨
      res.meshes.length ≤ meshIx then ⟨false, [], none⟩
  else
    let mesh := (res.meshes.get? meshIx).getD defaultMesh
    passLoopDirect res.path mesh start count glLINES effect.passes 0

/-- The per-pass loop of `RenderAreasInstanced`: a pass with no consumed
elements is skipped (`continue`); otherwise the pass walks the requested
areas and issues instanced draws. -/
def passLoopInstanced (path : String) (mesh : Tw2GeometryMesh)
    (start count instanceCount : Nat) : List PassInput → RenderOut
  | [] => ⟨true, [], none⟩
  | p :: rest =>
    if p.elementCount = 0 then passLoopInstanced path mesh start count instanceCount rest
    else
      let walk := outerAreas mesh.areas start count 0
      let draws := walk.1.map fun rc =>
        Draw.mk glTRIANGLES rc.2 mesh.indexType rc.1 (some instanceCount)
      match walk.2 with
      | some ix => ⟨false, draws, some (.areaMissing path ix)⟩
      | none =>
        let out := passLoopInstanced path mesh start count instanceCount rest
        ⟨out.ok, draws ++ out.draws, out.err⟩

/-- `Tw2GeometryRes.RenderAreasInstanced`: fails closed (returns `false`)
when the pass count is zero, the resource is not good, or `meshIx` is out
of range. -/
def RenderAreasInstanced (res : Tw2GeometryRes) (meshIx start count : Nat)
    (effect : Effect) (instanceCount : Nat) : RenderOut :=
  if effect.passes.length = 0 ∨ res.isGood = false ∨
      res.meshes.length ≤ meshIx then ⟨false, [], none⟩
  else
    let mesh := (res.meshes.get? meshIx).getD defaultMesh
    passLoopInstanced res.path mesh start count instanceCount effect.passes

/-! ## Ray intersection adapter (`Intersect`, spec section 4.6) -/

/-- `Tw2GeometryRes.Intersect`: rebuilds bounds, bounds-tests the ray
(`ray.IntersectBounds` supplied by the external ray collaborator as
`hitBounds`), then delegates to the selected mesh's own intersection
(`meshHits`), tags each hit with the mesh index and sorts by the ray's
ordering.  A missing mesh index contributes no hits. -/
def Intersect (res : Tw2GeometryRes) (hitBounds : Vec3 → Vec3 → Bool)
    (meshHits : Tw2GeometryMesh → List Nat) (le : Nat × Nat → Nat × Nat → Bool)
    (meshIndex : Nat) : Tw2GeometryRes × List (Nat × Nat) :=
  let r1 := (RebuildBounds res false).1
  if hitBounds r1.minBounds r1.maxBounds = false then (r1, [])
  else
    let internal :=
      match r1.meshes.get? meshIndex with
      | none => []
      | some mesh => (meshHits mesh).map fun h => (h, meshIndex)
    (r1, internal.mergeSort le)

/-! ## Decoder lemmas -/

/-- Total per-vertex component count of a declaration. -/
def sumElems (decl : List Tw2VertexElement) : Nat :=
  (decl.map (·.elements)).sum

/-- Projection used by closed counterexample statements: the decoded
scalar list of a per-element decode, when it succeeded. -/
def decodedScalars (x : Except GeomErr (List ℚ × BinReader)) : Option (List ℚ) :=
  match x with
  | .ok (out, _) => some out
  | .error _ => none

/-- Projection used by closed counterexample statements: the error of a
per-element decode, when it failed. -/
def decodedErr (x : Except GeomErr (List ℚ × BinReader)) : Option GeomErr :=
  match x with
  | .ok _ => none
  | .error e => some e

theorem readN_mkRead_spec (g : Int → ℚ) :
    ∀ (n : Nat) (r : BinReader),
      (readN (mkRead g) n r).1.length = n ∧
      (readN (mkRead g) n r).2.data = r.data ∧
      (readN (mkRead g) n r).2.cursor = r.cursor + n ∧
      ∀ x ∈ (readN (mkRead g) n r).1, ∃ v, x = g v := by
  intro n
  induction n with
  | zero => intro r; simp [readN]
  | succ k ih =>
    intro r
    have h := ih { r with cursor := r.cursor + 1 }
    simp only [readN, mkRead]
    refine ⟨by simp [h.1], by simp [h.2.1], by simp [h.2.2.1]; omega, ?_⟩
    intro x hx
    rcases List.mem_cons.mp hx with hx | hx
    · exact ⟨r.data r.cursor, hx⟩
    · exact h.2.2.2 x hx

theorem decodeElement_supported (path : String) (el : Tw2VertexElement)
    (r : BinReader) (hs : supportedNibble el.fileType) :
    ∃ out r2, decodeElement path el r = .ok (out, r2) ∧
      out.length = el.elements ∧ r2.data = r.data ∧
      r2.cursor = r.cursor + el.elements := by
  have ok_case : ∀ g : Int → ℚ,
      ∃ out r2,
        (Except.ok (readN (mkRead g) el.elements r) :
          Except GeomErr (List ℚ × BinReader)) = .ok (out, r2) ∧
        out.length = el.elements ∧ r2.data = r.data ∧
        r2.cursor = r.cursor + el.elements := by
    intro g
    obtain ⟨h1, h2, h3, _⟩ := readN_mkRead_spec g el.elements r
    exact ⟨(readN (mkRead g) el.elements r).1, (readN (mkRead g) el.elements r).2,
      rfl, h1, h2, h3⟩
  rcases hs with h | h | h | h | h | h | h | h <;>
    cases hn : (el.fileType &&& 0x10 != 0) <;>
    · simp only [decodeElement, h, hn] at *
      exact ok_case _

theorem decodeVertexElements_supported (path : String)
    (decl : List Tw2VertexElement)
    (hs : ∀ el ∈ decl, supportedNibble el.fileType) :
    ∀ r : BinReader, ∃ out r2,
      decodeVertexElements path decl r = .ok (out, r2) ∧
      out.length = sumElems decl ∧ r2.data = r.data ∧
      r2.cursor = r.cursor + sumElems decl := by
  induction decl with
  | nil => intro r; exact ⟨[], r, rfl, rfl, rfl, by simp [sumElems]⟩
  | cons el rest ih =>
    intro r
    obtain ⟨o1, r1, he, hl1, hd1, hc1⟩ :=
      decodeElement_supported path el r (hs el (by simp))
    obtain ⟨o2, r2, he2, hl2, hd2, hc2⟩ :=
      ih (fun e hm => hs e (by simp [hm])) r1
    refine ⟨o1 ++ o2, r2, ?_, ?_, ?_, ?_⟩
    · simp [decodeVertexElements, he, he2]
    · simp [hl1, hl2, sumElems]
    · rw [hd2, hd1]
    · rw [hc2, hc1]; simp [sumElems]; omega

theorem decodeVertices_supported (path : String)
    (decl : List Tw2VertexElement)
    (hs : ∀ el ∈ decl, supportedNibble el.fileType) :
    ∀ (n : Nat) (r : BinReader), ∃ out r2,
      decodeVertices path decl n r = .ok (out, r2) ∧
      out.length = n * sumElems decl ∧ r2.data = r.data ∧
      r2.cursor = r.cursor + n * sumElems decl := by
  intro n
  induction n with
  | zero => intro r; exact ⟨[], r, rfl, by simp, rfl, by simp⟩
  | succ k ih =>
    intro r
    obtain ⟨o1, r1, he, hl1, hd1, hc1⟩ := decodeVertexElements_supported path decl hs r
    obtain ⟨o2, r2, he2, hl2, hd2, hc2⟩ := ih r1
    refine ⟨o1 ++ o2, r2, ?_, ?_, ?_, ?_⟩
    · simp [decodeVertices, he, he2]
    · simp [hl1, hl2]; ring
    · rw [hd2, hd1]
    · rw [hc2, hc1]; ring

theorem readElements_componentCount :
    ∀ (n vs : Nat) (r : BinReader),
      ∀ el ∈ (readElements n vs r).1, el.elements = (el.fileType >>> 5) + 1 := by
  intro n
  induction n with
  | zero => intro vs r el h; simp [readElements] at h
  | succ k ih =>
    intro vs r el h
    simp only [readElements] at h
    rcases List.mem_cons.mp h with h | h
    · subst h; rfl
    · exact ih _ _ el h

/-! Range bounds for the wrapped integer reads. -/

theorem wrap8_bounds (v : Int) : -128 ≤ wrap8 v ∧ wrap8 v ≤ 127 := by
  unfold wrap8
  have h1 : 0 ≤ (v + 128) % 256 := Int.emod_nonneg _ (by norm_num)
  have h2 : (v + 128) % 256 < 256 := Int.emod_lt_of_pos _ (by norm_num)
  omega

theorem u8_bounds (v : Int) : 0 ≤ u8 v ∧ u8 v ≤ 255 := by
  unfold u8
  have h1 : 0 ≤ v % 256 := Int.emod_nonneg _ (by norm_num)
  have h2 : v % 256 < 256 := Int.emod_lt_of_pos _ (by norm_num)
  omega

theorem div_bounds_of_bounds {x lo hi d : ℚ} (hd : 0 < d)
    (h1 : lo ≤ x) (h2 : x ≤ hi) : lo / d ≤ x / d ∧ x / d ≤ hi / d :=
  ⟨(div_le_div_iff_of_pos_right hd).mpr h1, (div_le_div_iff_of_pos_right hd).mpr h2⟩

theorem norm127_bounds (v : Int) :
    -(128 / 127) ≤ (wrap8 v : ℚ) / 127 ∧ (wrap8 v : ℚ) / 127 ≤ 1 := by
  obtain ⟨h1, h2⟩ := wrap8_bounds v
  have h1q : (-128 : ℚ) ≤ (wrap8 v : ℚ) := by exact_mod_cast h1
  have h2q : (wrap8 v : ℚ) ≤ 127 := by exact_mod_cast h2
  obtain ⟨a, b⟩ := div_bounds_of_bounds (by norm_num : (0:ℚ) < 127) h1q h2q
  constructor
  · calc -(128 / 127 : ℚ) = -128 / 127 := by ring
    _ ≤ (wrap8 v : ℚ) / 127 := a
  · calc (wrap8 v : ℚ) / 127 ≤ 127 / 127 := b
    _ = 1 := by norm_num

theorem norm32767_bounds (v : Int) :
    -1 ≤ (wrap8 v : ℚ) / 32767 ∧ (wrap8 v : ℚ) / 32767 ≤ 1 := by
  obtain ⟨h1, h2⟩ := wrap8_bounds v
  have h1q : (-32767 : ℚ) ≤ (wrap8 v : ℚ) := by
    have : (-128 : ℚ) ≤ (wrap8 v : ℚ) := by exact_mod_cast h1
    linarith
  have h2q : (wrap8 v : ℚ) ≤ 32767 := by
    have : (wrap8 v : ℚ) ≤ 127 := by exact_mod_cast h2
    linarith
  obtain ⟨a, b⟩ := div_bounds_of_bounds (by norm_num : (0:ℚ) < 32767) h1q h2q
  constructor
  · calc (-1 : ℚ) = -32767 / 32767 := by norm_num
    _ ≤ _ := a
  · calc (wrap8 v : ℚ) / 32767 ≤ 32767 / 32767 := b
    _ = 1 := by norm_num

theorem norm255_bounds (v : Int) :
    0 ≤ (u8 v : ℚ) / 255 ∧ (u8 v : ℚ) / 255 ≤ 1 := by
  obtain ⟨h1, h2⟩ := u8_bounds v
  have h1q : (0 : ℚ) ≤ (u8 v : ℚ) := by exact_mod_cast h1
  have h2q : (u8 v : ℚ) ≤ 255 := by exact_mod_cast h2
  obtain ⟨a, b⟩ := div_bounds_of_bounds (by norm_num : (0:ℚ) < 255) h1q h2q
  constructor
  · calc (0 : ℚ) = 0 / 255 := by norm_num
    _ ≤ _ := a
  · calc (u8 v : ℚ) / 255 ≤ 255 / 255 := b
    _ = 1 := by norm_num

theorem norm65535_bounds (v : Int) :
    0 ≤ (u8 v : ℚ) / 65535 ∧ (u8 v : ℚ) / 65535 ≤ 1 := by
  obtain ⟨h1, h2⟩ := u8_bounds v
  have h1q : (0 : ℚ) ≤ (u8 v : ℚ) := by exact_mod_cast h1
  have h2q : (u8 v : ℚ) ≤ 65535 := by
    have : (u8 v : ℚ) ≤ 255 := by exact_mod_cast h2
    linarith
  obtain ⟨a, b⟩ := div_bounds_of_bounds (by norm_num : (0:ℚ) < 65535) h1q h2q
  constructor
  · calc (0 : ℚ) = 0 / 65535 := by norm_num
    _ ≤ _ := a
  · calc (u8 v : ℚ) / 65535 ≤ 65535 / 65535 := b
    _ = 1 := by norm_num

theorem readN_mem (g : Int → ℚ) (n : Nat) (r : BinReader) (out : List ℚ)
    (r2 : BinReader) (h : readN (mkRead g) n r = (out, r2)) :
    ∀ x ∈ out, ∃ v, x = g v := by
  intro x hx
  have hm := (readN_mkRead_spec g n r).2.2.2 x
  rw [h] at hm
  exact hm hx

theorem decodeElement_norm_ranges (path : String) (el : Tw2VertexElement)
    (r : BinReader) (out : List ℚ) (r2 : BinReader)
    (he : decodeElement path el r = .ok (out, r2))
    (hn : el.fileType &&& 0x10 ≠ 0) :
    ∀ x ∈ out,
      (el.fileType &&& 0xf = 0 → -(128 / 127) ≤ x ∧ x ≤ 1) ∧
      (el.fileType &&& 0xf = 1 → -1 ≤ x ∧ x ≤ 1) ∧
      (el.fileType &&& 0xf = 8 → 0 ≤ x ∧ x ≤ 1) ∧
      (el.fileType &&& 0xf = 9 → 0 ≤ x ∧ x ≤ 1) := by
  intro x hx
  have hnb : (el.fileType &&& 0x10 != 0) = true := by
    simpa using hn
  refine ⟨?_, ?_, ?_, ?_⟩ <;> intro hft <;>
    simp only [decodeElement, hft, hnb, reduceIte] at he <;>
    · have hpair := Except.ok.inj he
      obtain ⟨v, hv⟩ := readN_mem _ _ _ _ _ hpair x hx
      subst hv
      first
      | exact norm127_bounds v
      | exact norm32767_bounds v
      | exact norm255_bounds v
      | exact norm65535_bounds v

theorem decodeElement_unsupported (path : String) (el : Tw2VertexElement)
    (r : BinReader) (hs : ¬ supportedNibble el.fileType) :
    decodeElement path el r = .error (.fileType path (el.fileType &&& 0xf)) := by
  unfold supportedNibble at hs
  push_neg at hs
  obtain ⟨h0, h1, h2, h3, h4, h8, h9, h10⟩ := hs
  simp [decodeElement, h0, h1, h2, h3, h4, h8, h9, h10]

/-- C1, counterexample: the claim asserts every scalar produced by a
normalized signed encoding lies in `[-1, 1]`, but encoding byte `0x10`
(low nibble 0, normalize bit set) divides the raw signed byte by 127
without clamping, so the input byte `-128` decodes to `-128/127 < -1`. -/
theorem c1_normalized_exceeds_range :
    decodedScalars (decodeElement "res:/vertex" ⟨0, 0, 16, 1, 0⟩
        { data := fun _ => -128, cursor := 0 }) = some [-(128 / 127)] ∧
    ¬ (-1 ≤ -(128 / 127 : ℚ)) := by
  constructor
  · have h16 : (16 &&& 15 : Nat) = 0 := by decide
    have hbit : ((16 : Nat) &&& 16 != 0) = true := by decide
    simp only [decodeElement, h16, hbit, reduceIte, decodedScalars, readN,
      mkRead, wrap8]
    norm_num
  · norm_num

/-- C1 (amended): for every supported per-element encoding (low nibble in
0,1,2,3,4,8,9,10) the component count built by the declaration phase is
`(encoding >> 5) + 1`; decoding `N` vertices of a supported declaration
consumes exactly `N` times the total component count in encoded scalars
and produces exactly that many floats; and every scalar produced by a
normalized variant lies in `[0, 1]` for the unsigned encodings (8 and the
legacy 8-bit sub-path of 9), in `[-1, 1]` for the legacy 8-bit sub-path of
encoding 1 (divide by 32767), and in `[-128/127, 1]` — not `[-1, 1]` —
for encoding 0 (divide by 127, unclamped). -/
theorem c1_decode_counts_and_ranges :
    (∀ (n vs : Nat) (r : BinReader), ∀ el ∈ (readElements n vs r).1,
       el.elements = (el.fileType >>> 5) + 1)
    ∧ (∀ (path : String) (decl : List Tw2VertexElement) (n : Nat)
         (r : BinReader),
        (∀ el ∈ decl, supportedNibble el.fileType) →
        ∃ out r2, decodeVertices path decl n r = .ok (out, r2) ∧
          out.length = n * sumElems decl ∧ r2.data = r.data ∧
          r2.cursor = r.cursor + n * sumElems decl)
    ∧ (∀ (path : String) (el : Tw2VertexElement) (r : BinReader)
         (out : List ℚ) (r2 : BinReader),
        decodeElement path el r = .ok (out, r2) →
        el.fileType &&& 0x10 ≠ 0 →
        ∀ x ∈ out,
          (el.fileType &&& 0xf = 0 → -(128 / 127) ≤ x ∧ x ≤ 1) ∧
          (el.fileType &&& 0xf = 1 → -1 ≤ x ∧ x ≤ 1) ∧
          (el.fileType &&& 0xf = 8 → 0 ≤ x ∧ x ≤ 1) ∧
          (el.fileType &&& 0xf = 9 → 0 ≤ x ∧ x ≤ 1)) :=
  ⟨readElements_componentCount,
   fun path decl n r hs => decodeVertices_supported path decl hs n r,
   fun path el r out r2 he hn => decodeElement_norm_ranges path el r out r2 he hn⟩

/-- C1, witness: the amended theorem applied to a concrete two-element
declaration (a normalized signed byte element and a raw float element)
and three vertices. -/
theorem c1_decode_counts_and_ranges_witness :
    (∀ el ∈ [(⟨0, 0, 16, 1, 0⟩ : Tw2VertexElement), ⟨1, 0, 68, 3, 4⟩],
      supportedNibble el.fileType) ∧
    (∃ out r2,
      decodeVertices "res:/w" [⟨0, 0, 16, 1, 0⟩, ⟨1, 0, 68, 3, 4⟩] 3
          { data := fun _ => 1, cursor := 0 } = .ok (out, r2) ∧
      out.length = 3 * sumElems [⟨0, 0, 16, 1, 0⟩, ⟨1, 0, 68, 3, 4⟩] ∧
      r2.data = (fun _ => (1 : Int)) ∧ r2.cursor = 0 + 3 *
        sumElems [⟨0, 0, 16, 1, 0⟩, ⟨1, 0, 68, 3, 4⟩]) :=
  ⟨by decide,
   c1_decode_counts_and_ranges.2.1 "res:/w" [⟨0, 0, 16, 1, 0⟩, ⟨1, 0, 68, 3, 4⟩]
     3 { data := fun _ => 1, cursor := 0 } (by decide)⟩

/-- C5, counterexample: the claim asserts the error names the exact
offending encoding byte, but the source reports `el.fileType & 0xf`; for
the encoding byte 53 (`0x35`, low nibble 5, two components) the error
carries the value 5, not 53. -/
theorem c5_error_names_nibble_not_byte :
    decodedErr (decodeElement "res:/a" ⟨0, 0, 53, 2, 0⟩
        { data := fun _ => 0, cursor := 0 }) =
      some (.fileType "res:/a" 5) ∧ (5 : Nat) ≠ 53 := by
  constructor
  · have h : ¬ supportedNibble 53 := by decide
    rw [decodeElement_unsupported _ _ _ h]
    rfl
  · decide

/-- C5 (amended): for every element whose encoding byte has a low nibble
outside 0,1,2,3,4,8,9,10, the per-element decode throws
`ErrGeometryFileType` carrying the asset path and the low nibble
`fileType & 0xf` of the offending byte (not the full byte), and a vertex
decode containing such an element fails as a whole: it never returns a
buffer and never continues past the bad element. -/
theorem c5_unknown_encoding_fails :
    ∀ (path : String) (el : Tw2VertexElement) (r : BinReader),
      ¬ supportedNibble el.fileType →
      decodeElement path el r = .error (.fileType path (el.fileType &&& 0xf)) ∧
      ∀ (rest : List Tw2VertexElement) (n : Nat), 0 < n →
        decodeVertices path (el :: rest) n r =
          .error (.fileType path (el.fileType &&& 0xf)) := by
  intro path el r hs
  refine ⟨decodeElement_unsupported path el r hs, ?_⟩
  intro rest n hn
  match n, hn with
  | m + 1, _ =>
    simp [decodeVertices, decodeVertexElements,
      decodeElement_unsupported path el r hs]

/-- C5, witness: the amended theorem applied to the encoding byte 53 and
a one-vertex decode. -/
theorem c5_unknown_encoding_fails_witness :
    ¬ supportedNibble (53 : Nat) ∧
    (decodeElement "res:/a" ⟨0, 0, 53, 2, 0⟩ { data := fun _ => 0, cursor := 0 } =
       .error (.fileType "res:/a" (53 &&& 0xf)) ∧
     ∀ (rest : List Tw2VertexElement) (n : Nat), 0 < n →
       decodeVertices "res:/a" (⟨0, 0, 53, 2, 0⟩ :: rest) n
           { data := fun _ => 0, cursor := 0 } =
         .error (.fileType "res:/a" (53 &&& 0xf))) :=
  ⟨by decide,
   c5_unknown_encoding_fails "res:/a" ⟨0, 0, 53, 2, 0⟩
     { data := fun _ => 0, cursor := 0 } (by decide)⟩

/-! ## Area-merge lemmas -/

/-- Wraps one extra fold onto an inner-merge result. -/
def addFold (x : Except Nat (Int × Int × Nat)) : Except Nat (Int × Int × Nat) :=
  match x with
  | .ok (s, c, d) => .ok (s, c, d + 1)
  | .error e => .error e

theorem get?_some_lt {α : Type} {l : List α} {i : Nat} {a : α}
    (h : l.get? i = some a) : i < l.length := by
  by_contra hc
  push_neg at hc
  rw [List.get?_eq_none.mpr hc] at h
  cases h

theorem get?_some_of_lt {α : Type} {l : List α} {i : Nat}
    (h : i < l.length) : ∃ a, l.get? i = some a := by
  cases ha : l.get? i with
  | none => exact absurd (List.get?_eq_none.mp ha) (by omega)
  | some a => exact ⟨a, rfl⟩

theorem innerMerge_step (areas : List Tw2GeometryMeshArea)
    (start count i : Nat) (aS aC : Int) (a : Tw2GeometryMeshArea)
    (hlt : i + 1 < count) (ha : areas.get? (i + 1 + start) = some a) :
    (a.start = aS + aC * 2 →
      innerMerge areas start count i aS aC =
        addFold (innerMerge areas start count (i + 1) aS (aC + a.count))) ∧
    (a.start ≠ aS + aC * 2 →
      innerMerge areas start count i aS aC = .ok (aS, aC, 0)) := by
  constructor
  · intro hc
    rw [innerMerge]
    simp only [hlt, dite_true, ha, hc, reduceIte, addFold]
  · intro hc
    rw [innerMerge]
    simp only [hlt, dite_true]
    rw [ha]
    simp [hc]

theorem innerMerge_overrun (areas : List Tw2GeometryMeshArea)
    (start count : Nat) (hover : areas.length < start + count) :
    ∀ (k i : Nat) (aS aC : Int), count - i ≤ k → i + start < areas.length →
      innerMerge areas start count i aS aC = .error areas.length ∨
      ∃ s c d, innerMerge areas start count i aS aC = .ok (s, c, d) ∧
        i + d + 1 + start < areas.length := by
  intro k
  induction k with
  | zero => intro i aS aC hk hi; omega
  | succ m ih =>
    intro i aS aC hk hi
    by_cases hlt : i + 1 < count
    · rw [innerMerge]
      simp only [hlt, dite_true]
      cases ha : areas.get? (i + 1 + start) with
      | none =>
        left
        have hge : areas.length ≤ i + 1 + start := List.get?_eq_none.mp ha
        have heq : i + 1 + start = areas.length := by omega
        simp [heq]
      | some a =>
        have hlen : i + 1 + start < areas.length := get?_some_lt ha
        by_cases hc : a.start = aS + aC * 2
        · simp only [hc, reduceIte]
          rcases ih (i + 1) aS (aC + a.count) (by omega) (by omega) with
            he | ⟨s, c, d, hok, hd⟩
          · left; rw [he]
          · right; exact ⟨s, c, d + 1, by rw [hok], by omega⟩
        · simp only [hc, reduceIte]
          right
          exact ⟨aS, aC, 0, rfl, by omega⟩
    · exfalso; omega

theorem outerAreas_overrun (areas : List Tw2GeometryMeshArea)
    (start count : Nat) (hover : areas.length < start + count) :
    ∀ (k i : Nat), count - i ≤ k → i + start < areas.length →
      (outerAreas areas start count i).2 = some areas.length := by
  intro k
  induction k with
  | zero => intro i hk hi; omega
  | succ m ih =>
    intro i hk hi
    have hic : i < count := by omega
    rw [outerAreas]
    simp only [hic, dite_true]
    obtain ⟨a, ha⟩ := get?_some_of_lt (show i + start < areas.length from hi)
    rw [ha]
    rcases innerMerge_overrun areas start count hover (count - i) i a.start a.count
        (le_refl _) hi with he | ⟨s, c, d, hok, hd⟩
    · simp [he]
    · simp only [hok]
      exact ih (i + d + 1) (by omega) (by omega)

theorem passLoopDirect_overrun (path : String) (mesh : Tw2GeometryMesh)
    (start count mode pIdx : Nat) (p : PassInput) (tail : List PassInput)
    (hb : p.bindOk = true) (hs : start < mesh.areas.length)
    (ho : mesh.areas.length < start + count) :
    passLoopDirect path mesh start count mode (p :: tail) pIdx =
      ⟨false,
       (outerAreas mesh.areas start count 0).1.map
         (fun rc => Draw.mk mode rc.2 mesh.indexType rc.1 none),
       some (.areaMissing path mesh.areas.length)⟩ := by
  have hwalk := outerAreas_overrun mesh.areas start count ho count 0
    (by omega) (by omega)
  simp only [passLoopDirect, hb]
  rw [hwalk]
  simp

theorem passLoopInstanced_overrun (path : String) (mesh : Tw2GeometryMesh)
    (start count ic : Nat) (p : PassInput) (tail : List PassInput)
    (hp : p.elementCount ≠ 0) (hs : start < mesh.areas.length)
    (ho : mesh.areas.length < start + count) :
    passLoopInstanced path mesh start count ic (p :: tail) =
      ⟨false,
       (outerAreas mesh.areas start count 0).1.map
         (fun rc => Draw.mk glTRIANGLES rc.2 mesh.indexType rc.1 (some ic)),
       some (.areaMissing path mesh.areas.length)⟩ := by
  have hwalk := outerAreas_overrun mesh.areas start count ho count 0
    (by omega) (by omega)
  simp only [passLoopInstanced, hp]
  rw [hwalk]
  simp

/-! ## C2: area-merge correctness -/

/-- The four-area mesh of the claim: (start, count) pairs
(0,10), (20,5), (30,8), (100,4). -/
def c2Areas : List Tw2GeometryMeshArea :=
  [⟨"a0", 0, 10⟩, ⟨"a1", 20, 5⟩, ⟨"a2", 30, 8⟩, ⟨"a3", 100, 4⟩]

/-- A mesh over `c2Areas` with 16-bit indices (`gl.UNSIGNED_SHORT`). -/
def c2Mesh : Tw2GeometryMesh :=
  ⟨"m0", c2Areas, 5123, vzero, vzero, false, [], [], []⟩

/-- A good resource owning `c2Mesh`. -/
def c2Res : Tw2GeometryRes :=
  ⟨"res:/c2", true, [c2Mesh], [], [], vzero, vzero, vzero, 0, false⟩

/-- A one-pass effect whose pass binds and consumes elements. -/
def c2Effect : Effect := ⟨[⟨3, true⟩]⟩

/-- C2: on areas (0,10), (20,5), (30,8), (100,4), a request for the first
three areas issues exactly one merged draw of count 23 at offset 0; a
request for all four issues that merged draw plus a separate draw (100,4);
in general the next area is folded into the current run exactly when its
start equals `areaStart + areaCount * 2`; and the merge result (draw
counts and offsets, success and reported error) does not depend on the
mesh's index element width. -/
theorem c2_area_merge :
    (RenderAreas c2Res 0 0 3 c2Effect =
      ⟨true, [⟨glTRIANGLES, 23, 5123, 0, none⟩], none⟩) ∧
    (RenderAreas c2Res 0 0 4 c2Effect =
      ⟨true, [⟨glTRIANGLES, 23, 5123, 0, none⟩,
              ⟨glTRIANGLES, 4, 5123, 100, none⟩], none⟩) ∧
    (∀ (areas : List Tw2GeometryMeshArea) (start count i : Nat) (aS aC : Int)
       (a : Tw2GeometryMeshArea),
      i + 1 < count → areas.get? (i + 1 + start) = some a →
      (a.start = aS + aC * 2 →
        innerMerge areas start count i aS aC =
          addFold (innerMerge areas start count (i + 1) aS (aC + a.count))) ∧
      (a.start ≠ aS + aC * 2 →
        innerMerge areas start count i aS aC = .ok (aS, aC, 0))) ∧
    (∀ (mesh : Tw2GeometryMesh) (t : Nat) (path : String)
       (start count mode pIdx : Nat) (passes : List PassInput),
      (passLoopDirect path { mesh with indexType := t } start count mode
          passes pIdx).ok =
        (passLoopDirect path mesh start count mode passes pIdx).ok ∧
      (passLoopDirect path { mesh with indexType := t } start count mode
          passes pIdx).err =
        (passLoopDirect path mesh start count mode passes pIdx).err ∧
      (passLoopDirect path { mesh with indexType := t } start count mode
          passes pIdx).draws.map (fun d => (d.count, d.offset)) =
        (passLoopDirect path mesh start count mode passes pIdx).draws.map
          (fun d => (d.count, d.offset))) := by
  refine ⟨?_, ?_, innerMerge_step, ?_⟩
  · simp [RenderAreas, passLoopDirect, c2Res, c2Mesh, c2Effect, c2Areas,
      outerAreas, innerMerge, glTRIANGLES]
  · simp [RenderAreas, passLoopDirect, c2Res, c2Mesh, c2Effect, c2Areas,
      outerAreas, innerMerge, glTRIANGLES]
  · intro mesh t path start count mode pIdx passes
    induction passes generalizing pIdx with
    | nil => exact ⟨rfl, rfl, rfl⟩
    | cons p rest ih =>
      obtain ⟨ih1, ih2, ih3⟩ := ih (pIdx + 1)
      by_cases hb : p.bindOk = false
      · simp [passLoopDirect, hb]
      · cases hw : (outerAreas mesh.areas start count 0).2 with
        | some ix =>
          simp [passLoopDirect, hb, hw, List.map_map, Function.comp]
        | none =>
          simp [passLoopDirect, hb, hw, List.map_map, Function.comp,
            ih1, ih2, ih3]

/-- C2, witness: the general fold rule of the theorem applied at the
claim's concrete areas: from the run (0,10), area (20,5) at index 1 is
folded because 20 = 0 + 10*2. -/
theorem c2_area_merge_witness :
    (0 + 1 < 3 ∧ c2Areas.get? (0 + 1 + 0) = some ⟨"a1", 20, 5⟩) ∧
    (((⟨"a1", 20, 5⟩ : Tw2GeometryMeshArea).start = 0 + 10 * 2 →
       innerMerge c2Areas 0 3 0 0 10 =
         addFold (innerMerge c2Areas 0 3 (0 + 1) 0
           (10 + (⟨"a1", 20, 5⟩ : Tw2GeometryMeshArea).count))) ∧
     ((⟨"a1", 20, 5⟩ : Tw2GeometryMeshArea).start ≠ 0 + 10 * 2 →
       innerMerge c2Areas 0 3 0 0 10 = .ok (0, 10, 0))) :=
  ⟨⟨by decide, by decide⟩,
   c2_area_merge.2.2.1 c2Areas 0 3 0 0 10 ⟨"a1", 20, 5⟩ (by decide) (by decide)⟩

/-! ## C4: out-of-range mesh index -/

/-- A good one-mesh resource for the C4 counterexample. -/
def c4Res : Tw2GeometryRes :=
  ⟨"res:/c4", true, [⟨"m0", [⟨"a0", 0, 10⟩], 5123, vzero, vzero, false, [], [], []⟩],
   [], [], vzero, vzero, vzero, 0, false⟩

/-- A one-pass effect for the C4 counterexample. -/
def c4Effect : Effect := ⟨[⟨2, true⟩]⟩

/-- C4, counterexample: the claim asserts that `RenderAreas` with an
out-of-range mesh index falls back to rendering mesh 0, but the guard
`meshIx >= this.meshes.length` returns `false` first: on a good one-mesh
resource with a nonzero pass count, mesh index 1 yields `false` and no
draws, while the same call on mesh index 0 draws — so no fallback
happens. -/
theorem c4_no_mesh_fallback :
    RenderAreas c4Res 1 0 1 c4Effect = ⟨false, [], none⟩ ∧
    RenderAreas c4Res 0 0 1 c4Effect =
      ⟨true, [⟨glTRIANGLES, 10, 5123, 0, none⟩], none⟩ := by
  constructor <;>
    simp [RenderAreas, passLoopDirect, c4Res, c4Effect, outerAreas,
      innerMerge, glTRIANGLES, defaultMesh]

/-- C4 (amended): for every call where the requested mesh index is out of
range, both `RenderAreas` and `RenderAreasInstanced` fail closed — they
return `false` and issue no draws; the `meshes[meshIx] || meshes[0]`
fallback expression in `RenderAreas` is unreachable for out-of-range
indices. -/
theorem c4_out_of_range_fails_closed :
    ∀ (res : Tw2GeometryRes) (meshIx start count : Nat) (eff : Effect)
      (ic : Nat),
      res.meshes.length ≤ meshIx →
      RenderAreas res meshIx start count eff = ⟨false, [], none⟩ ∧
      RenderAreasInstanced res meshIx start count eff ic = ⟨false, [], none⟩ := by
  intro res meshIx start count eff ic h
  constructor <;> simp [RenderAreas, RenderAreasInstanced, h]

/-- C4, witness: the amended theorem applied to the concrete one-mesh
resource and mesh index 1. -/
theorem c4_out_of_range_fails_closed_witness :
    c4Res.meshes.length ≤ 1 ∧
    (RenderAreas c4Res 1 0 1 c4Effect = ⟨false, [], none⟩ ∧
     RenderAreasInstanced c4Res 1 0 1 c4Effect 7 = ⟨false, [], none⟩) :=
  ⟨by decide, c4_out_of_range_fails_closed c4Res 1 0 1 c4Effect 7 (by decide)⟩

/-! ## C10: requested range running past the area list -/

/-- C10: on a good resource with a pass that binds and consumes elements,
whenever `start` is a valid area index but `start + count` exceeds the
area count, each of `RenderAreas`, `RenderLines` and
`RenderAreasInstanced` reports `ErrGeometryMeshAreaMissing` naming the
first out-of-range area index (the area count) and returns `false`. -/
theorem c10_area_overrun_reported :
    ∀ (res : Tw2GeometryRes) (meshIx start count : Nat) (eff : Effect)
      (p : PassInput) (tail : List PassInput) (ic : Nat)
      (mesh : Tw2GeometryMesh),
      res.isGood = true →
      res.meshes.get? meshIx = some mesh →
      eff.passes = p :: tail →
      p.bindOk = true →
      p.elementCount ≠ 0 →
      start < mesh.areas.length →
      mesh.areas.length < start + count →
      ((RenderAreas res meshIx start count eff).ok = false ∧
       (RenderAreas res meshIx start count eff).err =
         some (.areaMissing res.path mesh.areas.length)) ∧
      ((RenderLines res meshIx start count eff).ok = false ∧
       (RenderLines res meshIx start count eff).err =
         some (.areaMissing res.path mesh.areas.length)) ∧
      ((RenderAreasInstanced res meshIx start count eff ic).ok = false ∧
       (RenderAreasInstanced res meshIx start count eff ic).err =
         some (.areaMissing res.path mesh.areas.length)) := by
  intro res meshIx start count eff p tail ic mesh hgood hmesh heff hb hp hs ho
  have hlt : meshIx < res.meshes.length := get?_some_lt hmesh
  have hcond : ¬ (eff.passes.length = 0 ∨ res.isGood = false ∨
      res.meshes.length ≤ meshIx) := by
    push_neg
    exact ⟨by simp [heff], by simp [hgood], by omega⟩
  refine ⟨?_, ?_, ?_⟩
  · rw [RenderAreas, if_neg hcond]
    simp only [hmesh, Option.getD_some, heff]
    rw [passLoopDirect_overrun res.path mesh start count glTRIANGLES 0 p tail hb hs ho]
    exact ⟨rfl, rfl⟩
  · rw [RenderLines, if_neg hcond]
    simp only [hmesh, Option.getD_some, heff]
    rw [passLoopDirect_overrun res.path mesh start count glLINES 0 p tail hb hs ho]
    exact ⟨rfl, rfl⟩
  · rw [RenderAreasInstanced, if_neg hcond]
    simp only [hmesh, Option.getD_some, heff]
    rw [passLoopInstanced_overrun res.path mesh start count ic p tail hp hs ho]
    exact ⟨rfl, rfl⟩

/-- A good two-area resource for the C10 witness. -/
def c10Res : Tw2GeometryRes :=
  ⟨"res:/c10", true,
   [⟨"m0", [⟨"a0", 0, 10⟩, ⟨"a1", 100, 5⟩], 5123, vzero, vzero, false, [], [], []⟩],
   [], [], vzero, vzero, vzero, 0, false⟩

/-- C10, witness: the theorem applied to a two-area mesh with a request
for areas 1 and 2 (area index 2 does not exist). -/
theorem c10_area_overrun_reported_witness :
    (c10Res.isGood = true ∧
     c10Res.meshes.get? 0 =
       some ⟨"m0", [⟨"a0", 0, 10⟩, ⟨"a1", 100, 5⟩], 5123, vzero, vzero, false, [], [], []⟩ ∧
     (Effect.mk [⟨2, true⟩]).passes = [⟨2, true⟩]) ∧
    ((RenderAreas c10Res 0 1 2 ⟨[⟨2, true⟩]⟩).ok = false ∧
     (RenderAreas c10Res 0 1 2 ⟨[⟨2, true⟩]⟩).err =
       some (.areaMissing c10Res.path 2)) ∧
    ((RenderLines c10Res 0 1 2 ⟨[⟨2, true⟩]⟩).ok = false ∧
     (RenderLines c10Res 0 1 2 ⟨[⟨2, true⟩]⟩).err =
       some (.areaMissing c10Res.path 2)) ∧
    ((RenderAreasInstanced c10Res 0 1 2 ⟨[⟨2, true⟩]⟩ 9).ok = false ∧
     (RenderAreasInstanced c10Res 0 1 2 ⟨[⟨2, true⟩]⟩ 9).err =
       some (.areaMissing c10Res.path 2)) :=
  ⟨⟨by decide, by decide, rfl⟩,
   c10_area_overrun_reported c10Res 0 1 2 ⟨[⟨2, true⟩]⟩ ⟨2, true⟩ [] 9
     ⟨"m0", [⟨"a0", 0, 10⟩, ⟨"a1", 100, 5⟩], 5123, vzero, vzero, false, [], [], []⟩
     (by decide) (by decide) rfl (by decide) (by decide) (by decide) (by decide)⟩

/-! ## Bounds engine lemmas -/

theorem meshRebuildBounds_clean (force : Bool) (m : Tw2GeometryMesh) :
    (meshRebuildBounds force m).boundsDirty = false := by
  unfold meshRebuildBounds
  by_cases h : (m.boundsDirty || force) = true
  · simp [h]
  · simp only [h, ite_false, reduceIte]
    simp only [Bool.or_eq_true, not_or] at h
    simpa using h.1

theorem rebuilt_meshes_clean (meshes : List Tw2GeometryMesh) (force : Bool) :
    (meshes.map (meshRebuildBounds force)).any (·.boundsDirty) = false := by
  induction meshes with
  | nil => rfl
  | cons m rest ih => simp [meshRebuildBounds_clean, ih]

theorem rebuild_clean (res : Tw2GeometryRes) :
    (RebuildBounds res false).1.boundsDirty = false ∧
    (RebuildBounds res false).1.meshes.any (·.boundsDirty) = false := by
  unfold RebuildBounds
  by_cases h1 : res.boundsDirty
  · simp [h1, meshRebuildBounds_clean]
  · by_cases h2 : res.meshes.any (·.boundsDirty)
    · simp [h1, h2, meshRebuildBounds_clean]
    · simp only [h1, h2]
      simp [Bool.false_eq_true] at h1 h2 ⊢
      exact ⟨h1, h2⟩

theorem rebuild_skip (res : Tw2GeometryRes) (h1 : res.boundsDirty = false)
    (h2 : res.meshes.any (·.boundsDirty) = false) :
    RebuildBounds res false = (res, false) := by
  unfold RebuildBounds
  simp [h1, h2]

theorem rebuild_length (res : Tw2GeometryRes) (force : Bool) :
    (RebuildBounds res force).1.meshes.length = res.meshes.length := by
  simp only [RebuildBounds]
  split <;> split <;> simp

/-! ## C6: RebuildBounds is idempotent -/

/-- C6: calling `RebuildBounds` twice with no intervening mutation yields
identical `minBounds`, `maxBounds`, `boundsSpherePosition` and
`boundsSphereRadius` after each call (in fact identical whole states), and
the resource's dirty flag is false after both calls. -/
theorem c6_rebuild_bounds_idempotent (res : Tw2GeometryRes) :
    (RebuildBounds (RebuildBounds res false).1 false).1 =
      (RebuildBounds res false).1 ∧
    (RebuildBounds (RebuildBounds res false).1 false).1.minBounds =
      (RebuildBounds res false).1.minBounds ∧
    (RebuildBounds (RebuildBounds res false).1 false).1.maxBounds =
      (RebuildBounds res false).1.maxBounds ∧
    (RebuildBounds (RebuildBounds res false).1 false).1.boundsSpherePosition =
      (RebuildBounds res false).1.boundsSpherePosition ∧
    (RebuildBounds (RebuildBounds res false).1 false).1.boundsSphereRadius =
      (RebuildBounds res false).1.boundsSphereRadius ∧
    (RebuildBounds res false).1.boundsDirty = false ∧
    (RebuildBounds (RebuildBounds res false).1 false).1.boundsDirty = false := by
  obtain ⟨ha, hb⟩ := rebuild_clean res
  have hs := rebuild_skip _ ha hb
  have heq : (RebuildBounds (RebuildBounds res false).1 false).1 =
      (RebuildBounds res false).1 := by rw [hs]
  exact ⟨heq, by rw [heq], by rw [heq], by rw [heq], by rw [heq], ha,
    by rw [heq]; exact ha⟩

/-! ## C3: dirty-flag propagation -/

/-- A clean one-mesh resource for the C3 counterexample. -/
def c3Res : Tw2GeometryRes :=
  ⟨"res:/c3", true, [⟨"m0", [], 5123, vzero, vzero, false, [], [], []⟩],
   [], [], vzero, vzero, vzero, 0, false⟩

/-- C3, counterexample: the claim asserts every mesh mutation, including
cleared geometry, sets the resource's dirty flag; but `Clear()` mutates
the mesh set (here, from one mesh to none) without touching
`_boundsDirty`, which stays false. -/
theorem c3_clear_leaves_flag_clean :
    (Clear c3Res).meshes ≠ c3Res.meshes ∧ (Clear c3Res).boundsDirty = false := by
  exact ⟨by decide, rfl⟩

/-- C3 (amended): `Clear` leaves the resource's dirty flag unchanged
rather than setting it; the invariant survives because `Clear` resets the
bounds to exactly the values a forced rebuild of the now-empty mesh set
produces (empty box, zero-radius sphere at the origin); and mesh dirtiness
propagates upward lazily: whenever the resource flag is clear and any one
owned mesh's dirty flag is set, the next `RebuildBounds` recomputes
rather than skipping. -/
theorem c3_dirty_propagation :
    ∀ res : Tw2GeometryRes,
      ((Clear res).boundsDirty = res.boundsDirty) ∧
      ((RebuildBounds (Clear res) true).1.minBounds = (Clear res).minBounds ∧
       (RebuildBounds (Clear res) true).1.maxBounds = (Clear res).maxBounds ∧
       (RebuildBounds (Clear res) true).1.boundsSpherePosition =
         (Clear res).boundsSpherePosition ∧
       (RebuildBounds (Clear res) true).1.boundsSphereRadius =
         (Clear res).boundsSphereRadius) ∧
      (res.boundsDirty = false → res.meshes.any (·.boundsDirty) = true →
        (RebuildBounds res false).2 = true) := by
  intro res
  refine ⟨rfl, ⟨?_, ?_, ?_, ?_⟩, ?_⟩
  · simp [RebuildBounds, Clear, boundsEmpty]
  · simp [RebuildBounds, Clear, boundsEmpty]
  · simp only [RebuildBounds, Clear, boundsEmpty, toPositionRadius]
    simp [vzero]
    try norm_num
  · simp only [RebuildBounds, Clear, boundsEmpty, toPositionRadius]
    simp [vzero]
    try norm_num
  · intro h1 h2
    simp [RebuildBounds, h1, h2]

/-- A resource with a clean flag but one dirty mesh, for the C3 witness. -/
def c3DirtyRes : Tw2GeometryRes :=
  ⟨"res:/c3d", true, [⟨"m0", [], 5123, vzero, vzero, true, [], [], []⟩],
   [], [], vzero, vzero, vzero, 0, false⟩

/-- C3, witness: the amended theorem's escalation clause applied to a
clean resource owning one dirty mesh — its next `RebuildBounds`
recomputes. -/
theorem c3_dirty_propagation_witness :
    (c3DirtyRes.boundsDirty = false ∧
     c3DirtyRes.meshes.any (·.boundsDirty) = true) ∧
    (RebuildBounds c3DirtyRes false).2 = true :=
  ⟨⟨rfl, by decide⟩, (c3_dirty_propagation c3DirtyRes).2.2 rfl (by decide)⟩

/-! ## C8: Clear semantics and Prepare freshness -/

/-- C8: `Clear` empties meshes, models and animations, zeroes all four
aggregate bounds fields, and is idempotent; `Prepare` invokes `Clear`
first, so its result is insensitive to the prior generation's meshes,
models and animations. -/
theorem c8_clear_and_prepare :
    ∀ (res : Tw2GeometryRes) (d : GeometryData) (ms : List Tw2GeometryMesh)
      (mods : List Tw2GeometryModel) (ans : List Nat),
      (Clear res).meshes = [] ∧ (Clear res).models = [] ∧
      (Clear res).animations = [] ∧ (Clear res).minBounds = vzero ∧
      (Clear res).maxBounds = vzero ∧
      (Clear res).boundsSpherePosition = vzero ∧
      (Clear res).boundsSphereRadius = 0 ∧
      Clear (Clear res) = Clear res ∧
      Prepare res d = Prepare (Clear res) d ∧
      Prepare { res with meshes := ms, models := mods, animations := ans } d =
        Prepare res d :=
  fun _ _ _ _ _ => ⟨rfl, rfl, rfl, rfl, rfl, rfl, rfl, rfl, rfl, rfl⟩

/-! ## C9: Intersect with an out-of-range mesh index -/

/-- C9: for every mesh index at or past the end of the mesh list,
`Intersect` returns the empty hit list without error — even when the ray
does hit the resource's bounds. -/
theorem c9_intersect_out_of_range :
    ∀ (res : Tw2GeometryRes) (hitBounds : Vec3 → Vec3 → Bool)
      (meshHits : Tw2GeometryMesh → List Nat)
      (le : Nat × Nat → Nat × Nat → Bool) (idx : Nat),
      res.meshes.length ≤ idx →
      (Intersect res hitBounds meshHits le idx).2 = [] := by
  intro res hitBounds meshHits le idx h
  unfold Intersect
  have hlen := rebuild_length res false
  have hget : (RebuildBounds res false).1.meshes[idx]? = none :=
    List.getElem?_eq_none (by omega)
  by_cases hbv : hitBounds (RebuildBounds res false).1.minBounds
      (RebuildBounds res false).1.maxBounds = false
  · simp [hbv]
  · simp only [hbv, Bool.false_eq_true, reduceIte]
    simp [hget]

/-- An empty-mesh resource for the C9 witness. -/
def c9Res : Tw2GeometryRes :=
  ⟨"res:/c9", true, [⟨"m0", [], 5123, vzero, vzero, false, [], [], []⟩],
   [], [], vzero, vzero, vzero, 0, false⟩

/-- C9, witness: the theorem applied with a ray whose bounds test always
hits and a mesh intersector that would report a hit — index 1 is out of
range for the one-mesh resource, so the result is still empty. -/
theorem c9_intersect_out_of_range_witness :
    c9Res.meshes.length ≤ 1 ∧
    (Intersect c9Res (fun _ _ => true) (fun _ => [7]) (fun _ _ => true) 1).2 = [] :=
  ⟨by decide,
   c9_intersect_out_of_range c9Res (fun _ _ => true) (fun _ => [7])
     (fun _ _ => true) 1 (by decide)⟩

/-! ## Mesh-model binder lemmas -/

theorem setBoneBox_find (n : String) (bb : Option Box) (m : String) :
    ∀ bones : List Bone,
      ((setBoneBox n bb bones).find? (fun b => b.name == m)).isSome =
        (bones.find? (fun b => b.name == m)).isSome := by
  intro bones
  induction bones with
  | nil => rfl
  | cons b rest ih =>
    by_cases hb : b.name == n
    · simp only [setBoneBox, hb, reduceIte]
      by_cases hm : b.name == m <;> simp [List.find?, hm]
    · simp only [setBoneBox, hb, reduceIte]
      by_cases hm : b.name == m <;> simp [List.find?, hm, ih]

theorem findBone_isSome_setBox (model : Tw2GeometryModel) (n : String)
    (bb : Option Box) (m : String) :
    (FindBoneByName { model with bones := setBoneBox n bb model.bones } m).isSome =
      (FindBoneByName model m).isSome :=
  setBoneBox_find n bb m model.bones

theorem findBone_none_setBox (model : Tw2GeometryModel) (n : String)
    (bb : Option Box) (m : String) :
    (FindBoneByName { model with bones := setBoneBox n bb model.bones } m = none) ↔
      (FindBoneByName model m = none) := by
  rw [← Option.not_isSome_iff_eq_none, ← Option.not_isSome_iff_eq_none,
    findBone_isSome_setBox]

theorem findBone_name (model : Tw2GeometryModel) (n : String) (bone : Bone)
    (h : FindBoneByName model n = some bone) : bone.name = n := by
  have hp := List.find?_some h
  exact eq_of_beq hp

theorem bindLoop_spec (path meshName : String) (mesh : Tw2GeometryMesh) :
    ∀ (names : List String) (model : Tw2GeometryModel) (acc : List Bone),
      ((∀ n ∈ names, (FindBoneByName model n).isSome) →
        (bindLoop path meshName mesh names model acc).2 = none ∧
        ∃ bs, (bindLoop path meshName mesh names model acc).1.meshBindings =
          model.meshBindings ++ [⟨meshName, acc ++ bs⟩] ∧
          bs.map (·.name) = names) ∧
      ((∃ n ∈ names, FindBoneByName model n = none) →
        ∃ n, n ∈ names ∧
          (bindLoop path meshName mesh names model acc).2 =
            some (.boneNameInvalid path meshName n model.name) ∧
          (bindLoop path meshName mesh names model acc).1.meshBindings =
            model.meshBindings) := by
  intro names
  induction names with
  | nil =>
    intro model acc
    constructor
    · intro _
      exact ⟨rfl, [], by simp [bindLoop], rfl⟩
    · rintro ⟨n, hn, _⟩
      cases hn
  | cons n rest ih =>
    intro model acc
    cases hf : FindBoneByName model n with
    | none =>
      constructor
      · intro hall
        have hc := hall n (by simp)
        rw [hf] at hc
        cases hc
      · intro _
        exact ⟨n, by simp, by simp [bindLoop, hf], by simp [bindLoop, hf]⟩
    | some bone =>
      have hbn : bone.name = n := findBone_name model n bone hf
      constructor
      · intro hall
        obtain ⟨h2, bs, hb1, hb2⟩ :=
          (ih { model with bones := setBoneBox n (FindBoneBoundsByName mesh n) model.bones } (acc ++ [{ bone with boundingBox := FindBoneBoundsByName mesh n }])).1
            (fun m hm => by
              rw [findBone_isSome_setBox]
              exact hall m (by simp [hm]))
        refine ⟨?_, { bone with boundingBox := FindBoneBoundsByName mesh n } :: bs,
          ?_, ?_⟩
        · simp only [bindLoop, hf]
          exact h2
        · simp only [bindLoop, hf]
          rw [hb1]
          simp
        · simp [hb2, hbn]
      · rintro ⟨m, hm, hnone⟩
        have hm2 : m ∈ rest := by
          rcases List.mem_cons.mp hm with he | hr
          · exfalso
            rw [he, hf] at hnone
            cases hnone
          · exact hr
        obtain ⟨m2, hm2mem, herr, hmb⟩ :=
          (ih { model with bones := setBoneBox n (FindBoneBoundsByName mesh n) model.bones } (acc ++ [{ bone with boundingBox := FindBoneBoundsByName mesh n }])).2
            ⟨m, hm2, (findBone_none_setBox model n _ m).mpr hnone⟩
        refine ⟨m2, by simp [hm2mem], ?_, ?_⟩
        · simp only [bindLoop, hf]
          exact herr
        · simp only [bindLoop, hf]
          exact hmb

/-! ## C7: binding a mesh with an unresolvable bone name -/

/-- C7: if some name in `mesh.boneBindings` has no bone in the model,
`BindMeshToModel` throws `ErrGeometryMeshBoneNameInvalid` carrying the
resource path, mesh name, bone name and model name, and the model's
`meshBindings` list is left unchanged; on success, exactly one binding is
appended, carrying the resolved bones in `boneBindings` order. -/
theorem c7_bind_mesh_to_model :
    ∀ (mesh : Tw2GeometryMesh) (model : Tw2GeometryModel)
      (res : Tw2GeometryRes),
      ((∃ n ∈ mesh.boneBindings, FindBoneByName model n = none) →
        ∃ n, n ∈ mesh.boneBindings ∧
          (BindMeshToModel mesh model res).2 =
            some (.boneNameInvalid res.path mesh.name n model.name) ∧
          (BindMeshToModel mesh model res).1.meshBindings =
            model.meshBindings) ∧
      ((∀ n ∈ mesh.boneBindings, (FindBoneByName model n).isSome) →
        (BindMeshToModel mesh model res).2 = none ∧
        ∃ bs, (BindMeshToModel mesh model res).1.meshBindings =
          model.meshBindings ++ [⟨mesh.name, bs⟩] ∧
          bs.map (·.name) = mesh.boneBindings) := by
  intro mesh model res
  obtain ⟨hok, herr⟩ := bindLoop_spec res.path mesh.name mesh
    mesh.boneBindings model []
  refine ⟨herr, fun hall => ?_⟩
  obtain ⟨h2, bs, hb1, hb2⟩ := hok hall
  exact ⟨h2, bs, by simpa using hb1, hb2⟩

/-- A mesh binding two bone names, for the C7 witness. -/
def c7Mesh : Tw2GeometryMesh :=
  ⟨"m0", [], 5123, vzero, vzero, false, [], ["hip", "spine"], []⟩

/-- A model whose skeleton has only the bone "hip". -/
def c7Model : Tw2GeometryModel := ⟨"mdl", [⟨"hip", none⟩], []⟩

/-- A resource fixture for the C7 witness. -/
def c7Res : Tw2GeometryRes :=
  ⟨"res:/c7", true, [], [], [], vzero, vzero, vzero, 0, false⟩

/-- C7, witness: the theorem applied where "spine" is missing from the
model — the bind reports the bone-name error and appends no binding. -/
theorem c7_bind_mesh_to_model_witness :
    (∃ n ∈ c7Mesh.boneBindings, FindBoneByName c7Model n = none) ∧
    (∃ n, n ∈ c7Mesh.boneBindings ∧
      (BindMeshToModel c7Mesh c7Model c7Res).2 =
        some (.boneNameInvalid c7Res.path c7Mesh.name n c7Model.name) ∧
      (BindMeshToModel c7Mesh c7Model c7Res).1.meshBindings =
        c7Model.meshBindings) :=
  ⟨⟨"spine", by decide, by decide⟩,
   (c7_bind_mesh_to_model c7Mesh c7Model c7Res).1 ⟨"spine", by decide, by decide⟩⟩

end CC
